import Mathlib

/-!
Verification of the KonomiTV server configuration module
(`server/app/config.py`): the schema validators that can be stated purely
(the listen-port validator), the loader singleton and fatal-error
handling, the comment-preserving rewrite writer (`SaveConfig`), and the
lightweight port accessor (`GetServerPort`).

The Python code is shallowly embedded:

* a parsed YAML document (`dict` of `dict`s, as produced by
  `ServerSettings.dict()` or by `ruamel.yaml` on a well-formed settings
  file) is a `ConfigDict`: an association list from section name to an
  association list from field name to `PyValue`;
* a Python float is represented by the string `str(float)` would produce
  (the only operation the code applies to a float is `str`);
* the four regular expressions of `SaveConfig` are implemented as
  character-list scanners with Python `re` semantics (`re.match`
  anchoring, non-greedy `.*?` with backtracking, `$` matching at the end
  of the string or just before a final newline);
* effects are made explicit: `Logging` calls become a returned list of
  `LogLine`s, `sys.exit` and `assert` become constructors of
  `LoadOutcome`, raised exceptions become `Except` errors, and the live
  pydantic validation pipeline (network probes, subprocesses) is an
  oracle field of `LoadEnv`.
-/

/-! ## Basic character-list utilities -/

/-- Predicate `lStarts pat s`: true iff `pat` is an initial segment of `s`
(Python `s.startswith(pat)` restricted to what the model needs). -/
def lStarts : List Char → List Char → Bool
  | [], _ => true
  | _ :: _, [] => false
  | p :: ps, c :: cs => p == c && lStarts ps cs

/-- Does `pat` occur as a contiguous substring of `s`?
(Python `pat in s`.) -/
def containsSub : List Char → List Char → Bool
  | [], pat => lStarts pat []
  | c :: cs, pat => lStarts pat (c :: cs) || containsSub cs pat

/-- Python `str.replace(pat, rep)`: replace every non-overlapping
occurrence of `pat`, scanning left to right.  `fuel` is an upper bound on
the number of characters still to be scanned (passing `s.length` makes
the function total without changing its value). -/
def pyReplaceAux (pat rep : List Char) : Nat → List Char → List Char
  | _, [] => []
  | 0, s => s
  | fuel + 1, c :: cs =>
    if pat ≠ [] ∧ lStarts pat (c :: cs) then
      rep ++ pyReplaceAux pat rep fuel ((c :: cs).drop pat.length)
    else
      c :: pyReplaceAux pat rep fuel cs

/-- Python `s.replace(pat, rep)` for a non-empty pattern. -/
def pyReplace (s pat rep : String) : String :=
  String.mk (pyReplaceAux pat.data rep.data s.data.length s.data)

/-- Python `s.rstrip` with the slash character: drop every trailing `/`. -/
def pyRstripSlash (s : String) : String :=
  String.mk (s.data.reverse.dropWhile (fun c => c = '/')).reverse

/-- Python `join` of a list of strings with the comma-newline separator. -/
def pyJoinComma : List String → String
  | [] => ""
  | [x] => x
  | x :: xs => x ++ ",\n" ++ pyJoinComma xs

/-- Worker of `splitNl` on character lists. -/
def splitNlAux : List Char → List (List Char)
  | [] => [[]]
  | c :: cs =>
    if c = '\n' then [] :: splitNlAux cs
    else
      match splitNlAux cs with
      | [] => [[c]]
      | l :: ls => (c :: l) :: ls

/-- Python `split` on the newline character: split on every newline,
keeping empty segments (the empty string splits into one empty
segment). -/
def splitNl (s : String) : List String :=
  (splitNlAux s.data).map String.mk

/-- Python `file.readlines()` applied to the whole file contents: cut
after every newline (keeping it), with a final newline-less piece kept
only when non-empty. -/
def splitLines : List Char → List (List Char)
  | [] => []
  | c :: cs =>
    if c = '\n' then ['\n'] :: splitLines cs
    else
      match splitLines cs with
      | [] => [[c]]
      | l :: ls => (c :: l) :: ls

/-- Decimal digit character for `n < 10` (0 maps to the digit zero, …). -/
def digitCh (n : Nat) : Char :=
  if n = 0 then '0' else if n = 1 then '1' else if n = 2 then '2'
  else if n = 3 then '3' else if n = 4 then '4' else if n = 5 then '5'
  else if n = 6 then '6' else if n = 7 then '7' else if n = 8 then '8'
  else '9'

/-- Decimal digit run of a natural number (fuel-based; `fuel ≥ 1 + n`
suffices for the standard rendering). -/
def natDigitsAux : Nat → Nat → List Char
  | 0, _ => []
  | fuel + 1, n =>
    if n < 10 then [digitCh n]
    else natDigitsAux fuel (n / 10) ++ [digitCh (n % 10)]

/-- Python `str(n)` for a natural number. -/
def pyNatStr (n : Nat) : String := String.mk (natDigitsAux (n + 1) n)

/-- Python `str(n)` for an `int`. -/
def pyIntStr (n : Int) : String :=
  if n < 0 then "-" ++ pyNatStr n.natAbs else pyNatStr n.toNat

/-- Python `s.endswith(suf)`. -/
def pyEndsWith (s suf : String) : Bool :=
  lStarts suf.data.reverse s.data.reverse

/-- Python `s[:-2]` (drop the final two characters). -/
def pyDropLast2 (s : String) : String :=
  String.mk (s.data.take (s.data.length - 2))

/-! ## Data model

A value as it appears in a parsed settings document.  A Python float is
carried as the string `str` would render it (the code only ever applies
`str` to it); a list field holds its elements as strings (the writer
interpolates each element into single quotes via `str`). -/

inductive PyValue where
  | pint (n : Int)
  | pfloat (render : String)
  | pbool (b : Bool)
  | pnone
  | pstr (s : String)
  | plist (xs : List String)
deriving DecidableEq, Repr

/-- One section of the document: field name to value. -/
abbrev ConfigSection := List (String × PyValue)

/-- A parsed settings document: section name to section, as produced by
`ServerSettings.dict()` or by parsing a well-formed `config.yaml`. -/
abbrev ConfigDict := List (String × ConfigSection)

/-- Lookup of a section in the document: `none` models a `KeyError`. -/
def lookupSec (cfg : ConfigDict) (sec : String) : Option ConfigSection :=
  List.lookup sec cfg

/-- Lookup of a field of a section: `none` models a `KeyError` at either level. -/
def getField (cfg : ConfigDict) (sec fld : String) : Option PyValue :=
  match lookupSec cfg sec with
  | none => none
  | some s => List.lookup fld s

/-- Assignment of a field of a section, for a binding that is already present
(every assignment in the modelled code overwrites a key it has just
read). -/
def setField (cfg : ConfigDict) (sec fld : String) (v : PyValue) : ConfigDict :=
  cfg.map fun p =>
    if p.1 = sec then (p.1, p.2.map fun q => if q.1 = fld then (q.1, v) else q)
    else p

/-! ## The writer line grammar (`SaveConfig`, lines 419-482)

The four patterns, with Python `re` semantics.  Quotes and braces are
written with the escapes \x27 (single quote), \x22 (double quote),
\x7b and \x7d (braces). -/

/-- Semantics of the dollar anchor with no `re.MULTILINE`: end of
string, or just before one final newline. -/
def dollarEnd : List Char → Bool
  | [] => true
  | ['\n'] => true
  | _ => false

/-- Python `\s` on `str` patterns (ASCII part; settings lines are
ASCII-spaced). -/
def isPySpace (c : Char) : Bool :=
  c = ' ' ∨ c = '\t' ∨ c = '\n' ∨ c = '\r' ∨ c = '\x0b' ∨ c = '\x0c'

/-- Pattern piece backslash-s-star, optional hash comment, dollar:
greedy whitespace, optional comment to end of line.
(`.` never crosses a newline, so giving whitespace back can never help;
the greedy scan is exact.) -/
def wsCommentEnd (cs : List Char) : Bool :=
  match cs.dropWhile isPySpace with
  | [] => true
  | '#' :: t => dollarEnd (t.dropWhile fun c => c ≠ '\n')
  | _ => false

def fourSp : List Char := [' ', ' ', ' ', ' ']

def eightSp : List Char := [' ', ' ', ' ', ' ', ' ', ' ', ' ', ' ']

/-- Continuation of the section-opening pattern after the closing quote
of the key: colon, space, open brace, dollar. -/
def parentCont : List Char → Bool
  | ':' :: ' ' :: '\x7b' :: e => dollarEnd e
  | _ => false

/-- Scan for the non-greedy quoted key of the section-opening pattern:
close at the first quote whose continuation matches (backtracking
semantics of the non-greedy quoted group followed by colon, space,
open brace, dollar); the dot cannot match a
newline.  Returns the text between the quotes. -/
def parentScan (q : Char) : List Char → Option (List Char)
  | [] => none
  | c :: cs =>
    if c = '\n' then none
    else if c = q ∧ parentCont cs then some []
    else (parentScan q cs).map fun k => c :: k

/-- Pattern one: four spaces, a quoted key group, colon, space, open
brace, dollar — a section-opening line.  Returns the key text between
the quotes. -/
def parentKeyMatch (line : List Char) : Option (List Char) :=
  if lStarts fourSp line then
    match line.drop 4 with
    | '\x27' :: cs => parentScan '\x27' cs
    | '\x22' :: cs => parentScan '\x22' cs
    | _ => none
  else none

/-- Continuation of the list-opening pattern after the closing quote of
the key: `: \[\s*(#.*)?$`. -/
def lsCont : List Char → Bool
  | ':' :: ' ' :: '[' :: rest => wsCommentEnd rest
  | _ => false

/-- Non-greedy key scan for the list-opening pattern. -/
def lsScan (q : Char) : List Char → Option (List Char)
  | [] => none
  | c :: cs =>
    if c = '\n' then none
    else if c = q ∧ lsCont cs then some []
    else (lsScan q cs).map fun k => c :: k

/-- Pattern two: eight spaces, a quoted key group, colon, space, open
bracket, optional whitespace and hash comment, dollar — a list-opening
line.  Returns the key text between the quotes. -/
def listStartMatch (line : List Char) : Option (List Char) :=
  if lStarts eightSp line then
    match line.drop 8 with
    | '\x27' :: cs => lsScan '\x27' cs
    | '\x22' :: cs => lsScan '\x22' cs
    | _ => none
  else none

/-- Pattern three: eight spaces, close bracket, comma, optional
whitespace and hash comment, dollar — a list-closing line. -/
def listEndMatch (line : List Char) : Bool :=
  if lStarts eightSp line then
    match line.drop 8 with
    | ']' :: ',' :: rest => wsCommentEnd rest
    | _ => false
  else false

/-- After the value and its comma: the rest of the line must be an
end-of-line position (`,$`). -/
def commaEnd : List Char → Option (List Char)
  | ',' :: e => if dollarEnd e then some e else none
  | _ => none

/-- The `[0-9\.]+` alternative of the value group followed by `,$`.
The character class excludes `,`, so the greedy run plus backtracking
matches exactly when the maximal digit-or-dot run is non-empty and is
followed by `,` at an end-of-line position.  Returns the text after the
comma. -/
def numTail (cs : List Char) : Option (List Char) :=
  let ds := cs.takeWhile fun c => c.isDigit ∨ c = '.'
  if ds = [] then none else commaEnd (cs.dropWhile fun c => c.isDigit ∨ c = '.')

/-- A literal alternative (`true` / `false` / `null`) followed by `,$`. -/
def litTail (lit : List Char) (cs : List Char) : Option (List Char) :=
  if lStarts lit cs then commaEnd (cs.drop lit.length)
  else none

/-- The non-greedy quoted-string alternative `q.*?q` followed by `,$`,
scanning the characters after the opening quote: close at the first
quote followed by `,` at an end-of-line position. -/
def quotTail (q : Char) : List Char → Option (List Char)
  | [] => none
  | c :: cs =>
    if c = '\n' then none
    else
      match (if c = q then commaEnd cs else none) with
      | some e => some e
      | none => quotTail q cs

/-- The value group
`(?P<value>[0-9\.]+|true|false|null|\x27.*?\x27|\x22.*?\x22)` followed by
`,$`.  The six alternatives start with disjoint characters, so regex
alternation order reduces to a dispatch on the first character.  Returns
the text after the final comma (empty, or one newline). -/
def valueTail : List Char → Option (List Char)
  | [] => none
  | c :: rest =>
    if c.isDigit ∨ c = '.' then numTail (c :: rest)
    else if c = '\x27' then quotTail '\x27' rest
    else if c = '\x22' then quotTail '\x22' rest
    else
      match litTail "true".data (c :: rest) with
      | some e => some e
      | none =>
        match litTail "false".data (c :: rest) with
        | some e => some e
        | none => litTail "null".data (c :: rest)

/-- Continuation of the scalar key-value pattern after the closing quote
of the key: `: ` then the value group and `,$`. -/
def kvCont : List Char → Option (List Char)
  | ':' :: ' ' :: vs => valueTail vs
  | _ => none

/-- Non-greedy key scan for the scalar key-value pattern.  Returns the
key text between the quotes and the text after the final comma. -/
def kvScan (q : Char) : List Char → Option (List Char × List Char)
  | [] => none
  | c :: cs =>
    if c = '\n' then none
    else
      match (if c = q then kvCont cs else none) with
      | some e => some ([], e)
      | none => (kvScan q cs).map fun p => (c :: p.1, p.2)

/-- Pattern four: eight spaces, a quoted key group, colon, space, the
value group, comma, dollar — a scalar key-value line.
Returns the quote character, the key text between the quotes and the
text after the final comma. -/
def keyValueMatch (line : List Char) : Option (Char × List Char × List Char) :=
  if lStarts eightSp line then
    match line.drop 8 with
    | '\x27' :: cs => (kvScan '\x27' cs).map fun p => ('\x27', p.1, p.2)
    | '\x22' :: cs => (kvScan '\x22' cs).map fun p => ('\x22', p.1, p.2)
    | _ => none
  else none

/-! ## Value serialization in the scalar branch (lines 462-476) -/

/-- Python `repr` of a string, as used by `str(list)` (escapes for
printable text: backslash, the chosen quote, newline, carriage return,
tab; the quote is `\x22` when the string contains `\x27` but no `\x22`,
else `\x27`). -/
def pyReprStr (s : String) : String :=
  let hasS := s.data.contains '\x27'
  let hasD := s.data.contains '\x22'
  let q : Char := if hasS ∧ ¬hasD then '\x22' else '\x27'
  String.mk (q :: (s.data.map fun c =>
    if c = '\\' then ['\\', '\\']
    else if c = q then ['\\', q]
    else if c = '\n' then ['\\', 'n']
    else if c = '\r' then ['\\', 'r']
    else if c = '\t' then ['\\', 't']
    else [c]).flatten ++ [q])

/-- Python `str` of a list of strings: `[repr(x), ...]`. -/
def pyStrOfList (xs : List String) : String :=
  "[" ++ String.intercalate ", " (xs.map pyReprStr) ++ "]"

/-- Python `str(value)` for the values the writer can receive (used by
the f-strings and by the Docker path rewrite). -/
def pyStr : PyValue → String
  | .pint n => pyIntStr n
  | .pfloat r => r
  | .pbool true => "True"
  | .pbool false => "False"
  | .pnone => "None"
  | .pstr s => s
  | .plist xs => pyStrOfList xs

/-- Lines 464-475: the `value_real` string before backslash escaping.
ints and floats go through `str` and lose a trailing dot-zero; `True`,
`False` and `None` become the YAML literals; everything else is
interpolated between single quotes by the f-string. -/
def formatValueReal (v : PyValue) : String :=
  match v with
  | .pint n => if pyEndsWith (pyIntStr n) ".0" then pyDropLast2 (pyIntStr n) else pyIntStr n
  | .pfloat r => if pyEndsWith r ".0" then pyDropLast2 r else r
  | .pbool true => "true"
  | .pbool false => "false"
  | .pnone => "null"
  | .pstr s => "\x27" ++ s ++ "\x27"
  | .plist xs => "\x27" ++ pyStrOfList xs ++ "\x27"

/-- Line 476: the replace call on value_real that doubles every
backslash. -/
def escBackslash : List Char → List Char
  | [] => []
  | c :: cs =>
    if c = '\\' then '\\' :: '\\' :: escBackslash cs
    else c :: escBackslash cs

/-- Model of the `re.sub` replacement-template processing of the `value_real`
segment of the template (line 478): `\\` denotes a literal backslash; a
lone backslash before any other character is a bad escape or a group
reference (`re.error`), modelled as `none`.  `processLine` only ever
passes escaped text, for which the result is always `some`. -/
def subTemplate : List Char → Option (List Char)
  | [] => some []
  | '\\' :: '\\' :: cs => (subTemplate cs).map fun l => '\\' :: l
  | '\\' :: _ => none
  | c :: cs => (subTemplate cs).map fun l => c :: l

/-! ## The writer line loop (lines 406-487) -/

/-- The loop state: `current_parent_key`, `in_list`, `list_key`. -/
structure SaveState where
  parent : String
  inList : Bool
  listKey : String
deriving DecidableEq, Repr

def initSaveState : SaveState := ⟨"", false, ""⟩

/-- An exception escaping `SaveConfig` (nothing is written in that
case: the `file.write` happens only after the loop finishes). -/
inductive SaveErr where
  | keyError (k : String)
  | badEscape
  | notIterable
deriving DecidableEq, Repr

/-- Model of the two chained replace calls on the key group: remove
every double and single quote. -/
def stripQuotes (l : List Char) : List Char :=
  l.filter fun c => ¬(c = '\x22' ∨ c = '\x27')

/-- Iterating a section value with `for item in …` (line 438): a list
yields its elements, a string its characters, anything else raises
`TypeError`. -/
def pyIterStrings : PyValue → Except SaveErr (List String)
  | .plist xs => .ok xs
  | .pstr s => .ok (s.data.map fun c => String.mk [c])
  | _ => .error .notIterable

/-- Line 438-439: the replacement block for a list field,
an f-string putting the quoted key at 4-space indent, then new_list,
then the closing bracket at 4-space indent, where new_list joins the
single-quoted items at 8-space indent with comma-newline.
Note the 4-space indent of the key line and of the closing bracket. -/
def listBlockString (k : String) (items : List String) : String :=
  "    \x27" ++ k ++ "\x27: [\n"
    ++ pyJoinComma (items.map fun it => "        \x27" ++ it ++ "\x27")
    ++ "\n    ],\n"

/-- The lines `file.readlines()` recovers from a replacement block
written by `listBlockString`: the 4-space-indented key line, the
8-space-indented element lines (all but the last ending in a comma) and
the 4-space-indented closing-bracket line. -/
def elemLines : List String → List (List Char)
  | [] => [['\n']]
  | [a] => [("        \x27" ++ a ++ "\x27\n").data]
  | a :: xs => ("        \x27" ++ a ++ "\x27,\n").data :: elemLines xs

/-- See `elemLines`. -/
def listBlockLines (k : String) (items : List String) : List (List Char) :=
  ("    \x27" ++ k ++ "\x27: [\n").data :: (elemLines items ++ [("    ],\n").data])

/-- One iteration of the `for current_line in current_lines` loop
(lines 419-482): returns the updated state and the lines appended to
`new_lines` (a multi-line replacement block is a single entry, exactly
as in the Python list). -/
def processLine (cfg : ConfigDict) (st : SaveState) (line : List Char) :
    Except SaveErr (SaveState × List (List Char)) :=
  match parentKeyMatch line with
  | some kc => .ok ({ st with parent := String.mk (stripQuotes kc) }, [line])
  | none =>
  match listStartMatch line with
  | some kc =>
    let lk := String.mk (stripQuotes kc)
    let st' := { st with listKey := lk, inList := true }
    match lookupSec cfg st.parent with
    | none => .error (.keyError st.parent)
    | some sec =>
      match List.lookup lk sec with
      | some v =>
        match pyIterStrings v with
        | .error e => .error e
        | .ok items => .ok (st', [(listBlockString lk items).data])
      | none => .ok (st', [line])
  | none =>
  if listEndMatch line then .ok ({ st with inList := false }, [])
  else if st.inList then .ok (st, [])
  else
    match keyValueMatch line with
    | some (q, kc, tail) =>
      let key := String.mk (stripQuotes (q :: (kc ++ [q])))
      match lookupSec cfg st.parent with
      | none => .error (.keyError st.parent)
      | some sec =>
        match List.lookup key sec with
        | some v =>
          match subTemplate (escBackslash (formatValueReal v).data) with
          | none => .error .badEscape
          | some vt =>
            .ok (st, [eightSp ++ q :: (kc ++ [q]) ++ ':' :: ' ' :: (vt ++ ',' :: tail)])
        | none => .ok (st, [line])
    | none => .ok (st, [line])

/-- The whole loop, threading the state and concatenating `new_lines`. -/
def processLines (cfg : ConfigDict) : SaveState → List (List Char) →
    Except SaveErr (SaveState × List (List Char))
  | st, [] => .ok (st, [])
  | st, l :: ls =>
    match processLine cfg st l with
    | .error e => .error e
    | .ok (st1, out1) =>
      match processLines cfg st1 ls with
      | .error e => .error e
      | .ok (st2, out2) => .ok (st2, out1 ++ out2)

/-- Function `SaveConfig` minus the Docker path rewrite: read the current file
text, run the loop from the initial state, join `new_lines` with
an empty-separator join and write the result.  An `Except.error` is an exception
raised before the write: the file is left untouched. -/
def saveConfigText (cfg : ConfigDict) (input : String) : Except SaveErr String :=
  match processLines cfg initSaveState (splitLines input.data) with
  | .error e => .error e
  | .ok r => .ok (String.mk r.2.flatten)

/-! ## The Docker path rewrite (`LoadConfig` lines 341-346,
`SaveConfig` lines 399-404) -/

/-- Constant `_DOCKER_PATH_PREFIX` (line 288). -/
def dockerPathPfx : String := "/host-rootfs"

/-- Line 344: `_DOCKER_PATH_PREFIX + path` applied at load time. -/
def dockerPrependPath (p : String) : String := dockerPathPfx ++ p

/-- Lines 402/404: `str` of the path, then replace of the Docker
prefix by the empty string, applied at save time — note this removes
every occurrence, not only a leading one. -/
def dockerStripPath (p : String) : String := pyReplace p dockerPathPfx ""

/-- Lines 399-404 of `SaveConfig`: under the Linux-Docker platform,
rewrite capture.upload_folder unconditionally (via `str`), and
tv.debug_mode_ts_path only when it is a `str` (the second disjunct of
line 403 compares the value with the `Path` class itself by identity
and is always false, so a `Path`-typed value is left untouched).  A
missing key raises `KeyError` (no handler here). -/
def saveDockerStrip (platform : String) (cfg : ConfigDict) : Except SaveErr ConfigDict :=
  if platform = "Linux-Docker" then
    match lookupSec cfg "capture" with
    | none => .error (.keyError "capture")
    | some cap =>
      match List.lookup "upload_folder" cap with
      | none => .error (.keyError "upload_folder")
      | some uf =>
        let cfg1 := setField cfg "capture" "upload_folder" (.pstr (dockerStripPath (pyStr uf)))
        match lookupSec cfg1 "tv" with
        | none => .error (.keyError "tv")
        | some tv =>
          match List.lookup "debug_mode_ts_path" tv with
          | none => .error (.keyError "debug_mode_ts_path")
          | some dp =>
            match dp with
            | .pstr s => .ok (setField cfg1 "tv" "debug_mode_ts_path" (.pstr (dockerStripPath s)))
            | _ => .ok cfg1
  else .ok cfg

/-- Function `SaveConfig` (lines 380-487): convert the document to a
plain mapping (`config.dict()` is the `ConfigDict` argument), undo the
Docker path prefix, then patch the file text line by line. -/
def SaveConfig (platform : String) (cfg : ConfigDict) (input : String) :
    Except SaveErr String :=
  match saveDockerStrip platform cfg with
  | .error e => .error e
  | .ok cfg2 => saveConfigText cfg2 input

/-! ## The port validator (`_ServerSettingsServer.validate_port`,
lines 205-246)

The OS state seen through `psutil` is abstracted to the fields the code
reads: the listening connections (`status`, `pid`, `laddr.port`) and the
process tree (`Process().pid`, `.ppid()`). -/

/-- One entry of `psutil.net_connections()`: its status string, its
owning pid (`None` when unresolvable) and its local-address port
(`none` models `conn.laddr is None`). -/
structure NetConn where
  status : String
  pid : Option Nat
  laddrPort : Option Int
deriving DecidableEq, Repr

/-- The process tree: the current process id and the parent map. -/
structure OSProcs where
  currentPid : Nat
  ppidOf : Nat → Nat

/-- Lines 226-229: the owner is skipped when it is the current process,
its parent, one of its children, or a sibling under the same parent. -/
def excludedPid (os : OSProcs) (pid : Nat) : Bool :=
  pid == os.currentPid || pid == os.ppidOf os.currentPid ||
    os.ppidOf pid == os.currentPid || os.ppidOf pid == os.ppidOf os.currentPid

/-- Lines 216-233: collect `used_ports` from the LISTEN connections
whose pid resolves and is not excluded, keeping `laddr.port` when
`laddr` is present. -/
def usedPorts (os : OSProcs) (conns : List NetConn) : List Int :=
  conns.filterMap fun conn =>
    if conn.status = "LISTEN" then
      match conn.pid with
      | none => none
      | some pid => if excludedPid os pid then none else conn.laddrPort
    else none

/-- Line 209-212. -/
def portRangeMsg : String :=
  "ポート番号の設定が不正なため、KonomiTV を起動できません。\n"
    ++ "設定したポート番号が 1024 ~ 65525 (65535 ではない) の間に収まっているかを確認してください。"

/-- Line 238-239 (`f`-string with the candidate port). -/
def portUsedMsg (port : Int) : String :=
  "ポート " ++ pyIntStr port ++ " は他のプロセスで使われているため、KonomiTV を起動できません。\n"
    ++ "重複して KonomiTV を起動していないか、他のソフトでポート " ++ pyIntStr port
    ++ " を使っていないかを確認してください。"

/-- Line 243-244 (`f`-string with the candidate port plus ten). -/
def portUsedMsg10 (port : Int) : String :=
  "ポート " ++ pyIntStr (port + 10) ++ " (" ++ pyIntStr port
    ++ " + 10) は他のプロセスで使われているため、KonomiTV を起動できません。\n"
    ++ "重複して KonomiTV を起動していないか、他のソフトでポート " ++ pyIntStr (port + 10)
    ++ " を使っていないかを確認してください。"

/-- Validator `validate_port` (lines 205-246): range check, then conflict check
against `used_ports` for the port itself and for the port plus 10
(the Akebi HTTPS front port).  A `ValueError` message is an `error`. -/
def validate_port (os : OSProcs) (conns : List NetConn) (port : Int) :
    Except String Int :=
  if port < 1024 ∨ port > 65525 then .error portRangeMsg
  else
    let used := usedPorts os conns
    if port ∈ used then .error (portUsedMsg port)
    else if (port + 10) ∈ used then .error (portUsedMsg10 port)
    else .ok port

/-! ## The loader (`LoadConfig`, lines 291-377) -/

/-- A leveled message handed to the `Logging` collaborator. -/
structure LogLine where
  level : String
  msg : String
deriving DecidableEq, Repr

def errLine (m : String) : LogLine := ⟨"error", m⟩

def debugLine (m : String) : LogLine := ⟨"debug", m⟩

/-- Outcome of the `ruamel.yaml` parse of `config.yaml` plus the
`dict(...)` conversion (lines 321-332): an exception with its type name
and text, an empty (`None`) document, or a two-level mapping.  A parse
whose result is not a mapping of mappings raises during `dict()` or
during later subscripting and is folded into `raised`. -/
inductive ParseResult where
  | raised (excName excMsg : String)
  | emptyDoc
  | parsed (d : ConfigDict)

/-- Result of `ServerSettings(**config_dict)` (line 353): the validated
document, or a `ValidationError` carrying the list of `msg` fields of
`error.errors()` plus the rendering `str(error)` of the whole error. -/
inductive ValidateResult where
  | ok (d : ConfigDict)
  | failed (msgs : List String) (raw : String)

/-- The collaborators `LoadConfig` consults, as an oracle record: the
file system, the YAML parse of the current file contents,
`GetPlatformEnvironment()` and the pydantic validation pipeline (whose
live probes depend on the network and on subprocesses). -/
structure LoadEnv where
  fileExists : Bool
  parse : ParseResult
  platform : String
  validate : ConfigDict → ValidateResult

/-- How a `LoadConfig` call ends: the reentry `assert` fires, the
process exits with a code, an uncaught `TypeError` escapes the
normalization block, or a document is loaded and stored. -/
inductive LoadOutcome where
  | assertReentry
  | exited (code : Nat)
  | uncaughtTypeError
  | loaded (d : ConfigDict)

/-- Result of the `try: … except KeyError: pass` normalization block
(lines 334-348): `ok` when every step ran, `keyErr` when a `KeyError`
cut it short (keeping the mutations made so far, then `pass`), and
`typeErr` when a non-`str` value reaches `.rstrip` or `+`
(`AttributeError`/`TypeError`, which the `except KeyError` does not
catch). -/
inductive NormResult where
  | ok (d : ConfigDict)
  | keyErr (d : ConfigDict)
  | typeErr

/-- Lines 334-348: strip the trailing slash of both backend URLs, then
under the Linux-Docker platform prepend the Docker prefix to
`capture.upload_folder` always and to `tv.debug_mode_ts_path` when it is
a `str`. -/
def tryNormalize (platform : String) (d0 : ConfigDict) : NormResult :=
  match getField d0 "general" "edcb_url" with
  | none => .keyErr d0
  | some (.pstr s1) =>
    let d1 := setField d0 "general" "edcb_url" (.pstr (pyRstripSlash s1))
    match getField d1 "general" "mirakurun_url" with
    | none => .keyErr d1
    | some (.pstr s2) =>
      let d2 := setField d1 "general" "mirakurun_url" (.pstr (pyRstripSlash s2))
      if platform = "Linux-Docker" then
        match getField d2 "capture" "upload_folder" with
        | none => .keyErr d2
        | some (.pstr s3) =>
          let d3 := setField d2 "capture" "upload_folder" (.pstr (dockerPrependPath s3))
          match getField d3 "tv" "debug_mode_ts_path" with
          | none => .keyErr d3
          | some (.pstr s4) =>
            .ok (setField d3 "tv" "debug_mode_ts_path" (.pstr (dockerPrependPath s4)))
          | some _ => .ok d3
        | some _ => .typeErr
      else .ok d2
    | some _ => .typeErr
  | some _ => .typeErr

/-- The dictionary the normalization block leaves behind when it does
not raise an uncaught error. -/
def normedDict : NormResult → Option ConfigDict
  | .ok d => some d
  | .keyErr d => some d
  | .typeErr => none

/-- Line 361: a custom-validator message is recognized by the `。`
marker. -/
def hasMarker (m : String) : Bool := m.data.contains '。'

/-- Lines 359-364: the loop over `error.errors()` logs, for every
marked message, one error line per `\n`-separated segment. -/
def customErrLines : List String → List LogLine
  | [] => []
  | m :: ms =>
    (if hasMarker m then (splitNl m).map errLine else []) ++ customErrLines ms

/-- Line 369. -/
def genericMsg1 : String := "設定内容が不正なため、KonomiTV を起動できません。"

/-- Line 370. -/
def genericMsg2 : String :=
  "以下のエラーメッセージを参考に、config.yaml の記述が正しいかを確認してください。"

/-- Lines 355-372: what gets logged and the exit code when validation
fails.  If any message carries the marker, only the marked messages are
logged (split on newlines) and the process exits 1; otherwise two
generic lines plus `str(error)` are logged and the process exits 1. -/
def validationFailureAction (msgs : List String) (raw : String) :
    List LogLine × Nat :=
  if msgs.any hasMarker then (customErrLines msgs, 1)
  else ([errLine genericMsg1, errLine genericMsg2, errLine raw], 1)

/-- Line 316. -/
def missingFileMsg1 : String := "設定ファイルが配置されていないため、KonomiTV を起動できません。"

/-- Lines 317/326. -/
def copyExampleMsg : String :=
  "config.example.yaml を config.yaml にコピーし、お使いの環境に合わせて編集してください。"

/-- Line 325. -/
def emptyFileMsg : String := "設定ファイルが空のため、KonomiTV を起動できません。"

/-- Line 330. -/
def loadErrorMsg : String := "設定ファイルのロード中にエラーが発生したため、KonomiTV を起動できません。"

/-- Model of `ServerSettings.unverified` (lines 266-279): `construct` wraps the
raw values without running any validator. -/
def unverifiedSettings (d : ConfigDict) : ConfigDict := d

/-- Loader `LoadConfig` (lines 291-377) over the oracle
environment and the `_CONFIG` singleton: returns how the call ends, the
singleton afterwards, and the lines logged.  The reentry `assert` on
line 308 runs first, before the file is read — when the singleton is
already set the result does not consult `env` at all. -/
def LoadConfig (env : LoadEnv) (st : Option ConfigDict) (bypass : Bool) :
    LoadOutcome × Option ConfigDict × List LogLine :=
  if st.isSome then (.assertReentry, st, [])
  else if env.fileExists = false then
    (.exited 1, st, [errLine missingFileMsg1, errLine copyExampleMsg])
  else
    match env.parse with
    | .raised n m => (.exited 1, st, [errLine loadErrorMsg, errLine (n ++ ": " ++ m)])
    | .emptyDoc => (.exited 1, st, [errLine emptyFileMsg, errLine copyExampleMsg])
    | .parsed d0 =>
      match normedDict (tryNormalize env.platform d0) with
      | none => (.uncaughtTypeError, st, [])
      | some d =>
        if bypass = false then
          match env.validate d with
          | .ok s => (.loaded s, some s, [debugLine "Server settings loaded."])
          | .failed msgs raw =>
            let r := validationFailureAction msgs raw
            (.exited r.2, st, r.1)
        else
          (.loaded (unverifiedSettings d), some (unverifiedSettings d),
            [debugLine "Server settings loaded (bypassed validation)."])

/-! ## The fast port accessor (`GetServerPort`, lines 504-522) -/

/-- Accessor `GetServerPort` (lines 504-522): re-parse the file directly and return
the value under the server section and port key; any exception on the way (missing
file, parse failure, bad top-level shape — all folded into `none` —
or a missing key) is swallowed and the default 7000 is returned.  Note
the value found under `server.port` is returned as is, whatever its
type. -/
def GetServerPort (fileState : Option ConfigDict) : PyValue :=
  match fileState with
  | none => .pint 7000
  | some d =>
    match getField d "server" "port" with
    | none => .pint 7000
    | some v => v

/-- Is a document value an `int`?  (`GetServerPort` is annotated
`-> int`.) -/
def isIntValue : PyValue → Bool
  | .pint _ => true
  | _ => false

/-- A concrete process tree for boundary tests: pid 100 with parent 1. -/
def sampleOS : OSProcs := ⟨100, fun _ => 1⟩

/-- A well-formed parsed document for loader tests. -/
def c6SampleDict : ConfigDict :=
  [("general", [("edcb_url", .pstr "tcp://e/"), ("mirakurun_url", .pstr "http://m/")])]

/-- The aggregated validation messages of the loader test: one
domain-marked two-line message and one generic pydantic message. -/
def c6SampleMsgs : List String :=
  ["設定が不正です。\n確認してください。", "value is not a valid integer"]

/-- A loader environment whose validation oracle fails with
`c6SampleMsgs`. -/
def c6SampleEnv : LoadEnv :=
  ⟨true, .parsed c6SampleDict, "Linux", fun _ => .failed c6SampleMsgs "raw detail"⟩

/-! ## Helper lemmas -/

theorem lStarts_append_self (p x : List Char) : lStarts p (p ++ x) = true := by
  induction p with
  | nil => rfl
  | cons c cs ih => simp [lStarts, ih]

theorem subTemplate_escBackslash (l : List Char) :
    subTemplate (escBackslash l) = some l := by
  induction l with
  | nil => rfl
  | cons c cs ih =>
    by_cases h : c = '\\'
    · subst h; simp [escBackslash, subTemplate, ih]
    · rw [escBackslash, if_neg h]
      match c, h with
      | '\\', h => exact absurd rfl h
      | c, h =>
        rw [subTemplate.eq_def]
        split
        · simp_all [escBackslash]
        · simp_all
        · simp_all
        · simp_all [ih]

theorem parentScan_close {q : Char} {w rest : List Char}
    (hw : ∀ c ∈ w, c ≠ q ∧ c ≠ '\n') (hq : q ≠ '\n') (hr : parentCont rest = true) :
    parentScan q (w ++ q :: rest) = some w := by
  induction w with
  | nil => simp [parentScan, hq, hr]
  | cons c cs ih =>
    have h1 := hw c (by simp)
    have ih' := ih (fun c hc => hw c (by simp [hc]))
    simp [parentScan, h1.1, h1.2, ih']

theorem parentScan_none_ext {q : Char} {w rest : List Char}
    (hw : ∀ c ∈ w, c ≠ q ∧ c ≠ '\n') (hq : q ≠ '\n')
    (hr : parentCont rest = false) (h2 : parentScan q rest = none) :
    parentScan q (w ++ q :: rest) = none := by
  induction w with
  | nil => simp [parentScan, hq, hr, h2]
  | cons c cs ih =>
    have h1 := hw c (by simp)
    have ih' := ih (fun c hc => hw c (by simp [hc]))
    simp [parentScan, h1.1, h1.2, ih']

theorem lsScan_close {q : Char} {w rest : List Char}
    (hw : ∀ c ∈ w, c ≠ q ∧ c ≠ '\n') (hq : q ≠ '\n') (hr : lsCont rest = true) :
    lsScan q (w ++ q :: rest) = some w := by
  induction w with
  | nil => simp [lsScan, hq, hr]
  | cons c cs ih =>
    have h1 := hw c (by simp)
    have ih' := ih (fun c hc => hw c (by simp [hc]))
    simp [lsScan, h1.1, h1.2, ih']

theorem lsScan_none_ext {q : Char} {w rest : List Char}
    (hw : ∀ c ∈ w, c ≠ q ∧ c ≠ '\n') (hq : q ≠ '\n')
    (hr : lsCont rest = false) (h2 : lsScan q rest = none) :
    lsScan q (w ++ q :: rest) = none := by
  induction w with
  | nil => simp [lsScan, hq, hr, h2]
  | cons c cs ih =>
    have h1 := hw c (by simp)
    have ih' := ih (fun c hc => hw c (by simp [hc]))
    simp [lsScan, h1.1, h1.2, ih']

theorem kvScan_close {q : Char} {w rest t : List Char}
    (hw : ∀ c ∈ w, c ≠ q ∧ c ≠ '\n') (hq : q ≠ '\n') (hr : kvCont rest = some t) :
    kvScan q (w ++ q :: rest) = some (w, t) := by
  induction w with
  | nil => simp [kvScan, hq, hr]
  | cons c cs ih =>
    have h1 := hw c (by simp)
    have ih' := ih (fun c hc => hw c (by simp [hc]))
    simp [kvScan, h1.1, h1.2, ih']

theorem kvScan_none_ext {q : Char} {w rest : List Char}
    (hw : ∀ c ∈ w, c ≠ q ∧ c ≠ '\n') (hq : q ≠ '\n')
    (hr : kvCont rest = none) (h2 : kvScan q rest = none) :
    kvScan q (w ++ q :: rest) = none := by
  induction w with
  | nil => simp [kvScan, hq, hr, h2]
  | cons c cs ih =>
    have h1 := hw c (by simp)
    have ih' := ih (fun c hc => hw c (by simp [hc]))
    simp [kvScan, h1.1, h1.2, ih']

theorem processLine_nomatch {cfg : ConfigDict} {st : SaveState} {line : List Char}
    (hp : parentKeyMatch line = none) (hl : listStartMatch line = none)
    (he : listEndMatch line = false) (hil : st.inList = false)
    (hk : keyValueMatch line = none) :
    processLine cfg st line = .ok (st, [line]) := by
  simp [processLine, hp, hl, he, hil, hk]

theorem processLines_id {cfg : ConfigDict} {st : SaveState} {ls : List (List Char)}
    (h : ∀ l ∈ ls, processLine cfg st l = .ok (st, [l])) :
    processLines cfg st ls = .ok (st, ls) := by
  induction ls with
  | nil => rfl
  | cons l ls ih =>
    have h1 := h l (by simp)
    have ih' := ih (fun l hl => h l (by simp [hl]))
    simp [processLines, h1, ih']

theorem processLines_passthrough {cfg : ConfigDict} {st : SaveState}
    {pre ls : List (List Char)}
    (h : ∀ l ∈ pre, processLine cfg st l = .ok (st, [l])) :
    processLines cfg st (pre ++ ls) =
      (processLines cfg st ls).map fun r => (r.1, pre ++ r.2) := by
  induction pre with
  | nil =>
    cases hr : processLines cfg st ls <;> simp [Except.map, hr]
  | cons l pre ih =>
    have h1 := h l (by simp)
    have ih' := ih (fun l hl => h l (by simp [hl]))
    simp only [List.cons_append, processLines, h1, ih']
    cases hr : processLines cfg st ls <;> simp [Except.map, hr, ih']

theorem digitCh_ne_dot (n : Nat) : digitCh n ≠ '.' := by
  unfold digitCh
  repeat' split
  all_goals decide

theorem natDigitsAux_ne_dot :
    ∀ fuel n, ∀ c ∈ natDigitsAux fuel n, c ≠ '.' := by
  intro fuel
  induction fuel with
  | zero => intro n c hc; simp [natDigitsAux] at hc
  | succ fuel ih =>
    intro n c hc
    rw [natDigitsAux] at hc
    split at hc
    · simp at hc; subst hc; exact digitCh_ne_dot n
    · rcases List.mem_append.mp hc with h | h
      · exact ih _ c h
      · simp at h; subst h; exact digitCh_ne_dot _

theorem pyIntStr_ne_dot (n : Int) : ∀ c ∈ (pyIntStr n).data, c ≠ '.' := by
  intro c hc
  unfold pyIntStr at hc
  split at hc
  · rw [String.data_append] at hc
    rcases List.mem_append.mp hc with h | h
    · have hd : "-".data = ['-'] := rfl
      rw [hd] at h
      simp at h
      subst h; decide
    · exact natDigitsAux_ne_dot _ _ c h
  · exact natDigitsAux_ne_dot _ _ c hc

theorem pyEndsWith_dot0_of_ne_dot {s : String}
    (h : ∀ c ∈ s.data, c ≠ '.') : pyEndsWith s ".0" = false := by
  unfold pyEndsWith
  have hrev : (".0".data).reverse = ['0', '.'] := by decide
  rw [hrev]
  match hm : s.data.reverse with
  | [] => rfl
  | [c] => simp [lStarts]
  | c1 :: c2 :: t =>
    have hc2 : c2 ∈ s.data := by
      have : c2 ∈ s.data.reverse := by rw [hm]; simp
      exact List.mem_reverse.mp this
    have hne := h c2 hc2
    show (('0' == c1) && (('.' == c2) && lStarts [] t)) = false
    have hb : ('.' == c2) = false := beq_eq_false_iff_ne.mpr fun hh => hne hh.symm
    simp [hb]

theorem pyReplaceAux_no_occ {pat rep : List Char} :
    ∀ fuel s, s.length ≤ fuel → containsSub s pat = false →
      pyReplaceAux pat rep fuel s = s := by
  intro fuel
  induction fuel with
  | zero =>
    intro s hle _
    have : s = [] := List.eq_nil_of_length_eq_zero (Nat.le_zero.mp hle)
    subst this; rfl
  | succ fuel ih =>
    intro s hle h
    match s with
    | [] => rfl
    | c :: cs =>
      rw [containsSub, Bool.or_eq_false_iff] at h
      rw [pyReplaceAux, if_neg (fun hh => by simp [h.1] at hh)]
      rw [ih cs (by simp [List.length_cons] at hle; omega) h.2]

theorem pyReplaceAux_cancel {pat : List Char} (hpat : pat ≠ []) :
    ∀ fuel s, s.length ≤ fuel → containsSub s pat = false →
      pyReplaceAux pat [] (pat.length + fuel) (pat ++ s) = s := by
  intro fuel s hle h
  match pat, hpat with
  | c :: cs, _ =>
    have hlen : (c :: cs).length + fuel = (cs.length + fuel) + 1 := by
      simp [List.length_cons]; omega
    rw [hlen, List.cons_append, pyReplaceAux,
      if_pos ⟨by simp, by rw [← List.cons_append]; exact lStarts_append_self _ _⟩]
    rw [List.nil_append, ← List.cons_append, List.drop_left]
    exact pyReplaceAux_no_occ _ s (by omega) h

theorem splitLines_line {a b : List Char} (ha : '\n' ∉ a) :
    splitLines (a ++ '\n' :: b) = (a ++ ['\n']) :: splitLines b := by
  induction a with
  | nil => simp [splitLines]
  | cons c a ih =>
    have hc : c ≠ '\n' := fun hh => ha (by simp [hh])
    have ih' := ih fun hh => ha (by simp [hh])
    simp [splitLines, hc, ih']

theorem customErrLines_eq (msgs : List String) :
    customErrLines msgs =
      ((msgs.filter hasMarker).map fun m => (splitNl m).map errLine).flatten := by
  induction msgs with
  | nil => rfl
  | cons m ms ih =>
    by_cases h : hasMarker m
    · simp [customErrLines, List.filter_cons, h, ih]
    · simp [customErrLines, List.filter_cons, h, ih]

/-! ## Claims -/

/-- C3, counterexample: the save-time strip is `str.replace`, which
removes every occurrence of `/host-rootfs`, so on a path that itself
contains the prefix the round trip loses text: prepending to
the prefix itself and stripping yields the empty string, not the
original path. -/
theorem c3_counter_roundtrip_loses_text :
    dockerStripPath (dockerPrependPath "/host-rootfs") = ""
      ∧ "" ≠ "/host-rootfs" := by
  constructor
  · rfl
  · decide

/-- C3 (amended): for every path value `p` that does not contain the
fixed prefix `/host-rootfs` as a substring — in particular every real
host path — the save-time strip `dockerStripPath` exactly reverses the
load-time prepend `dockerPrependPath`.  (As stated over all `p` the
claim fails, because the strip is a replace-all: see the
counterexample.) -/
theorem c3_docker_roundtrip (p : String)
    (h : containsSub p.data dockerPathPfx.data = false) :
    dockerStripPath (dockerPrependPath p) = p := by
  unfold dockerStripPath dockerPrependPath pyReplace
  rw [String.data_append]
  have h0 : "".data = [] := rfl
  rw [h0]
  have hl : (dockerPathPfx.data ++ p.data).length
      = dockerPathPfx.data.length + p.data.length := by simp
  rw [hl, pyReplaceAux_cancel (by decide) p.data.length p.data (le_refl _) h]

/-- C3 witness. -/
theorem c3_docker_roundtrip_witness :
    dockerStripPath (dockerPrependPath "/home/user/captures") = "/home/user/captures" :=
  c3_docker_roundtrip "/home/user/captures" (by decide)

/-- C5: `validate_port` rejects every port outside `[1024, 65525]` with
the range error, and the bounds are inclusive: 1023 and 65526 are
rejected while 1024 and 65525 pass the range check and are accepted
when no (non-excluded) listener exists. -/
theorem c5_port_range_bounds :
    (∀ (os : OSProcs) (conns : List NetConn) (p : Int),
        p < 1024 ∨ p > 65525 → validate_port os conns p = .error portRangeMsg)
      ∧ validate_port sampleOS [] 1023 = .error portRangeMsg
      ∧ validate_port sampleOS [] 65526 = .error portRangeMsg
      ∧ validate_port sampleOS [] 1024 = .ok 1024
      ∧ validate_port sampleOS [] 65525 = .ok 65525 := by
  refine ⟨fun os conns p h => ?_, rfl, rfl, rfl, rfl⟩
  simp [validate_port, h]

/-- C5 witness. -/
theorem c5_port_range_bounds_witness :
    validate_port sampleOS [] 70000 = .error portRangeMsg :=
  c5_port_range_bounds.1 sampleOS [] 70000 (Or.inr (by decide))

/-- C7: `LoadConfig` is callable at most once per process.  Whenever
the `_CONFIG` singleton is already set, any further call — for every
environment (file present or not, any parse result, any validation
oracle) and for both `bypass_validation` flags — ends in the reentry
assertion, logs nothing, and leaves the singleton exactly as it was.
The result does not depend on `env`, reflecting that the `assert` on
line 308 runs before the file is read. -/
theorem c7_load_reentry_assert (env : LoadEnv) (st : Option ConfigDict)
    (b : Bool) (d : ConfigDict) (h : st = some d) :
    LoadConfig env st b = (.assertReentry, some d, []) := by
  subst h
  simp [LoadConfig]

/-- C7 witness. -/
theorem c7_load_reentry_assert_witness :
    LoadConfig ⟨true, .emptyDoc, "Linux", fun d => .ok d⟩
        (some [("general", [])]) true
      = (.assertReentry, some [("general", [])], []) :=
  c7_load_reentry_assert _ _ true [("general", [])] rfl

/-- C8, counterexample: `GetServerPort` returns the value stored at
`server.port` without validating it, so it does not always return an
integer — a file whose server.port is a string makes it
return that string. -/
theorem c8_counter_port_not_int :
    GetServerPort (some [("server", [("port", .pstr "8000")])]) = .pstr "8000"
      ∧ isIntValue (GetServerPort (some [("server", [("port", .pstr "8000")])])) = false := by
  exact ⟨rfl, rfl⟩

/-- C8 (amended): `GetServerPort` never propagates a failure: every
failing file state (missing file, unparsable or ill-shaped content —
`none` — or a missing `server`/`port` key) yields the hardcoded
default 7000, and when the file parses and the key exists it returns
the stored value as is, running no validation.  (The stored value is an
integer only when the file holds one: see the counterexample.) -/
theorem c8_get_server_port_fallback :
    GetServerPort none = .pint 7000
      ∧ (∀ d : ConfigDict, getField d "server" "port" = none →
          GetServerPort (some d) = .pint 7000)
      ∧ (∀ (d : ConfigDict) (v : PyValue), getField d "server" "port" = some v →
          GetServerPort (some d) = v) := by
  refine ⟨rfl, fun d h => ?_, fun d v h => ?_⟩
  · simp [GetServerPort, h]
  · simp [GetServerPort, h]

/-- C8 witness. -/
theorem c8_get_server_port_fallback_witness :
    GetServerPort (some [("server", [("port", .pint 7010)])]) = .pint 7010 :=
  c8_get_server_port_fallback.2.2 [("server", [("port", .pint 7010)])] (.pint 7010) rfl

/-- C4: for every candidate port in `[1024, 65525]` the port validator
(i) counts exactly the ports of LISTEN sockets with a resolvable owner
pid that is not the current process, its parent, a direct child, or a
sibling under the same parent; (ii) fails with the message naming `p`
when `p` is so bound; (iii) fails with the message naming `p + 10`
when only `p + 10` is so bound; (iv) accepts otherwise; and (v) accepts
when every listening owner is excluded (or unresolvable), i.e. a port
bound only by the current process, its parent, a child, or a sibling is
accepted. -/
theorem c4_port_conflict_detector (os : OSProcs) (conns : List NetConn)
    (p : Int) (h1 : 1024 ≤ p) (h2 : p ≤ 65525) :
    (∀ x : Int, x ∈ usedPorts os conns ↔
        ∃ c ∈ conns, c.status = "LISTEN" ∧
          ∃ pid, c.pid = some pid ∧ excludedPid os pid = false ∧ c.laddrPort = some x)
      ∧ (p ∈ usedPorts os conns →
          validate_port os conns p = .error (portUsedMsg p))
      ∧ (p ∉ usedPorts os conns → (p + 10) ∈ usedPorts os conns →
          validate_port os conns p = .error (portUsedMsg10 p))
      ∧ (p ∉ usedPorts os conns → (p + 10) ∉ usedPorts os conns →
          validate_port os conns p = .ok p)
      ∧ ((∀ c ∈ conns, c.status = "LISTEN" →
            ∀ pid, c.pid = some pid → excludedPid os pid = true) →
          validate_port os conns p = .ok p) := by
  have hrange : ¬(p < 1024 ∨ p > 65525) := by omega
  refine ⟨fun x => ?_, fun hin => ?_, fun hout hin10 => ?_, fun hout hout10 => ?_,
    fun hexc => ?_⟩
  · rw [usedPorts, List.mem_filterMap]
    constructor
    · rintro ⟨c, hc, hf⟩
      refine ⟨c, hc, ?_⟩
      by_cases hs : c.status = "LISTEN"
      · rw [if_pos hs] at hf
        rcases hpid : c.pid with _ | pid <;> rw [hpid] at hf
        · simp at hf
        · by_cases he : excludedPid os pid
          · simp [he] at hf
          · simp only [he, if_false, Bool.false_eq_true] at hf
            exact ⟨hs, pid, rfl, by simpa [Bool.not_eq_true] using he, hf⟩
      · rw [if_neg hs] at hf; cases hf
    · rintro ⟨c, hc, hs, pid, hp, he, hl⟩
      refine ⟨c, hc, ?_⟩
      rw [if_pos hs, hp]
      simp [he, hl]
  · simp [validate_port, hrange, hin]
  · simp [validate_port, hrange, hout, hin10]
  · simp [validate_port, hrange, hout, hout10]
  · have hempty : usedPorts os conns = [] := by
      rw [usedPorts, List.filterMap_eq_nil_iff]
      intro c hc
      by_cases hs : c.status = "LISTEN"
      · rw [if_pos hs]
        rcases hp : c.pid with _ | pid
        · rfl
        · simp [hexc c hc hs pid hp]
      · rw [if_neg hs]
    simp [validate_port, hrange, hempty]

/-- C4 witness: with current pid 100 (parent 50), a LISTEN socket on
port 8010 owned by the unrelated process 200 makes port 8000 fail with
the message naming 8010, while the same socket owned by the sibling
process 300 (same parent 50) is excluded and port 8000 is accepted. -/
theorem c4_port_conflict_detector_witness :
    validate_port ⟨100, fun n => if n = 100 then 50 else if n = 300 then 50 else 1⟩
        [⟨"LISTEN", some 200, some 8010⟩] 8000 = .error (portUsedMsg10 8000)
      ∧ validate_port ⟨100, fun n => if n = 100 then 50 else if n = 300 then 50 else 1⟩
        [⟨"LISTEN", some 300, some 8010⟩] 8000 = .ok 8000 := by
  constructor
  · exact (c4_port_conflict_detector _ _ 8000 (by decide) (by decide)).2.2.1
      (by decide) (by decide)
  · exact (c4_port_conflict_detector _ _ 8000 (by decide) (by decide)).2.2.2.2
      (by decide)

/-- C6: when validation fails during `LoadConfig` (file present, parse
succeeded, normalization did not raise), if at least one aggregated
error message carries the domain marker `。` then exactly the marked
messages are logged at error level — one log line per newline-separated
segment — the unmarked errors are not logged, and the process exits
with code 1; if no message carries the marker, the two generic
explanatory lines plus the raw error rendering are logged and the
process exits with code 1.  In both cases the singleton stays unset. -/
theorem c6_validation_failure_logging (env : LoadEnv) (d d' : ConfigDict)
    (msgs : List String) (raw : String)
    (h1 : env.fileExists = true) (h2 : env.parse = .parsed d)
    (h3 : normedDict (tryNormalize env.platform d) = some d')
    (h4 : env.validate d' = .failed msgs raw) :
    ((∃ m ∈ msgs, hasMarker m) →
        LoadConfig env none false =
          (.exited 1, none,
            ((msgs.filter hasMarker).map fun m => (splitNl m).map errLine).flatten))
      ∧ ((¬ ∃ m ∈ msgs, hasMarker m) →
        LoadConfig env none false =
          (.exited 1, none, [errLine genericMsg1, errLine genericMsg2, errLine raw])) := by
  have hL : LoadConfig env none false =
      (.exited (validationFailureAction msgs raw).2, none,
        (validationFailureAction msgs raw).1) := by
    simp [LoadConfig, h1, h2, h3, h4]
  constructor
  · rintro ⟨m, hm, hmk⟩
    have hany : msgs.any hasMarker = true := List.any_eq_true.mpr ⟨m, hm, hmk⟩
    rw [hL]
    simp [validationFailureAction, hany, customErrLines_eq]
  · intro hn
    have hany : msgs.any hasMarker = false := by
      rw [List.any_eq_false]
      intro m hm
      exact fun hmk => hn ⟨m, hm, hmk⟩
    rw [hL]
    simp [validationFailureAction, hany]

/-- C6 witness: a two-error set with one marked message logs exactly
the two newline segments of the marked message and exits 1. -/
theorem c6_validation_failure_logging_witness :
    LoadConfig c6SampleEnv none false =
      (.exited 1, none,
        (((c6SampleMsgs.filter hasMarker).map fun m => (splitNl m).map errLine).flatten)) :=
  (c6_validation_failure_logging c6SampleEnv c6SampleDict
      [("general", [("edcb_url", .pstr "tcp://e"), ("mirakurun_url", .pstr "http://m")])]
      c6SampleMsgs "raw detail" rfl rfl (by decide) rfl).1
    ⟨"設定が不正です。\n確認してください。", by decide, by decide⟩

/-- C2, counterexample: a comment line sitting between a list-opening
line and its closing bracket matches none of the four recognized shapes
(last four conjuncts), yet `SaveConfig` drops it: the output text does
not contain the line at all, because every line seen while `in_list` is
set is discarded. -/
theorem c2_counter_comment_dropped_in_list :
    SaveConfig "Linux" [("general", [("mylist", .plist ["a"])])]
        "    \x27general\x27: \x7b\n        \x27mylist\x27: [\n        # keep me\n        ],\n"
      = .ok "    \x27general\x27: \x7b\n    \x27mylist\x27: [\n        \x27a\x27\n    ],\n"
      ∧ containsSub
          "    \x27general\x27: \x7b\n    \x27mylist\x27: [\n        \x27a\x27\n    ],\n".data
          "        # keep me\n".data = false
      ∧ parentKeyMatch "        # keep me\n".data = none
      ∧ listStartMatch "        # keep me\n".data = none
      ∧ listEndMatch "        # keep me\n".data = false
      ∧ keyValueMatch "        # keep me\n".data = none :=
  ⟨rfl, by decide, by decide, by decide, by decide, by decide⟩

/-- C2 (amended): a line that matches none of the four recognized
shapes passes through the `SaveConfig` loop byte-identically and leaves
the loop state unchanged, provided it is not encountered inside an open
list block (lines inside an open block are dropped: see the
counterexample). -/
theorem c2_verbatim_outside_list (cfg : ConfigDict) (st : SaveState)
    (line : List Char) (hil : st.inList = false)
    (hp : parentKeyMatch line = none) (hl : listStartMatch line = none)
    (he : listEndMatch line = false) (hk : keyValueMatch line = none) :
    processLine cfg st line = .ok (st, [line]) :=
  processLine_nomatch hp hl he hil hk

/-- C2 witness. -/
theorem c2_verbatim_outside_list_witness :
    processLine [] initSaveState "# Server settings.\n".data
      = .ok (initSaveState, ["# Server settings.\n".data]) :=
  c2_verbatim_outside_list [] initSaveState "# Server settings.\n".data
    rfl (by decide) (by decide) (by decide) (by decide)

/-- C10: when a line of the scalar key-value shape or of the
list-opening shape occurs before any section-opening line has been
seen (the preceding lines match none of the four shapes), the writer
looks up the empty-string section name, which is no key of the
document, and raises `KeyError` — nothing is written, since the write
happens only after the loop.  The second conjunct shows a concrete such
file end to end through `SaveConfig` with the real five-section
document shape. -/
theorem c10_keyerror_before_section :
    (∀ (cfg : ConfigDict) (pre : List (List Char)) (l : List Char)
        (rest : List (List Char)),
      lookupSec cfg "" = none →
      (∀ p ∈ pre, parentKeyMatch p = none ∧ listStartMatch p = none ∧
        listEndMatch p = false ∧ keyValueMatch p = none) →
      parentKeyMatch l = none →
      ((∃ kc, listStartMatch l = some kc) ∨
        (listStartMatch l = none ∧ listEndMatch l = false ∧
          ∃ x, keyValueMatch l = some x)) →
      processLines cfg initSaveState (pre ++ l :: rest) = .error (.keyError ""))
      ∧ SaveConfig "Linux"
          [("general", []), ("server", [("port", .pint 7000)]), ("tv", []),
            ("capture", []), ("twitter", [])]
          "# comment\n        \x27port\x27: 7000,\n" = .error (.keyError "") := by
  constructor
  · intro cfg pre l rest hcfg hpre hp hcase
    have hstep : processLine cfg initSaveState l = .error (.keyError "") := by
      rcases hcase with ⟨kc, hk⟩ | ⟨hnl, hne, ⟨q, kc, t⟩, hk⟩
      · simp [processLine, hp, hk, hcfg, initSaveState]
      · simp [processLine, hp, hnl, hne, hk, hcfg, initSaveState]
    have hpass : ∀ p ∈ pre, processLine cfg initSaveState p = .ok (initSaveState, [p]) :=
      fun p hp2 =>
        processLine_nomatch (hpre p hp2).1 (hpre p hp2).2.1 (hpre p hp2).2.2.1
          rfl (hpre p hp2).2.2.2
    rw [processLines_passthrough hpass]
    simp [processLines, hstep, Except.map]
  · rfl

/-- C10 witness. -/
theorem c10_keyerror_before_section_witness :
    processLines [("general", [])] initSaveState
        (["# c\n".data] ++ "        \x27port\x27: 1,\n".data :: [])
      = .error (.keyError "") :=
  c10_keyerror_before_section.1 [("general", [])] ["# c\n".data]
    "        \x27port\x27: 1,\n".data [] (by decide) (by decide) (by decide)
    (Or.inr ⟨by decide, by decide, ⟨('\x27', "port".data, ['\n']), by decide⟩⟩)

theorem drop_eightSp (x : List Char) : (eightSp ++ x).drop 8 = x := by
  simp [eightSp]

theorem parentKeyMatch_eightSp (x : List Char) :
    parentKeyMatch (eightSp ++ x) = none := by
  have h1 : lStarts fourSp (eightSp ++ x) = true := by
    simp [fourSp, eightSp, lStarts]
  have h2 : (eightSp ++ x).drop 4 = ' ' :: ' ' :: ' ' :: ' ' :: x := by
    simp [eightSp]
  rw [parentKeyMatch, if_pos h1, h2]
  rfl

theorem listEndMatch_quote (x : List Char) :
    listEndMatch (eightSp ++ '\x27' :: x) = false := by
  rw [listEndMatch, if_pos (lStarts_append_self _ _), drop_eightSp]
  rfl

theorem stripQuotes_clean {k : List Char}
    (hk : ∀ c ∈ k, c ≠ '\x27' ∧ c ≠ '\x22' ∧ c ≠ '\n') :
    stripQuotes ('\x27' :: (k ++ ['\x27'])) = k := by
  rw [stripQuotes]
  rw [List.filter_cons_of_neg (by decide), List.filter_append]
  rw [List.filter_eq_self.mpr fun c hc => by
    have := hk c hc
    simp [this.1, this.2.1]]
  simp

/-- C1, counterexample: the claim predicts a doubled backslash in the
written output, but the doubling (the backslash replace on
value_real) exists only to survive the `re.sub` template processing,
which turns
`\\` back into a single backslash — a string value with one backslash
is written with one backslash, not two. -/
theorem c1_counter_backslash_not_doubled :
    SaveConfig "Linux" [("general", [("f", .pstr "a\\b")])]
        "    \x27general\x27: \x7b\n        \x27f\x27: \x27x\x27,\n"
      = .ok "    \x27general\x27: \x7b\n        \x27f\x27: \x27a\\b\x27,\n"
      ∧ "    \x27general\x27: \x7b\n        \x27f\x27: \x27a\\b\x27,\n"
        ≠ "    \x27general\x27: \x7b\n        \x27f\x27: \x27a\\\\b\x27,\n" :=
  ⟨rfl, by decide⟩

/-- C1 (amended): on a scalar key-value line (8-space indent, quoted
key, value token, trailing comma; not also recognizable as a
list-opening line) whose key is present in the matching section of the
document, the writer replaces only the value token and keeps the
8-space indent, the quoted key, the separator, the comma and the line
ending; the replacement is `formatValueReal`: integers and
`.0`-rendered floats without the trailing `.0`, booleans as lowercase
`true`/`false`, `None` as `null`, strings re-quoted with their
backslashes preserved as-is (doubled only transiently, before the
template substitution halves them back). -/
theorem c1_scalar_rewrite :
    (∀ (cfg : ConfigDict) (st : SaveState) (sec : ConfigSection) (k : String)
        (oldv e : List Char) (v : PyValue),
      st.inList = false →
      lookupSec cfg st.parent = some sec →
      List.lookup k sec = some v →
      (∀ c ∈ k.data, c ≠ '\x27' ∧ c ≠ '\x22' ∧ c ≠ '\n') →
      listStartMatch
        (eightSp ++ '\x27' :: (k.data ++ '\x27' :: ':' :: ' ' :: (oldv ++ ',' :: e))) = none →
      valueTail (oldv ++ ',' :: e) = some e →
      processLine cfg st
          (eightSp ++ '\x27' :: (k.data ++ '\x27' :: ':' :: ' ' :: (oldv ++ ',' :: e)))
        = .ok (st,
            [eightSp ++ '\x27' ::
              (k.data ++ '\x27' :: ':' :: ' ' :: ((formatValueReal v).data ++ ',' :: e))]))
      ∧ (∀ n : Int,
          formatValueReal (.pint n) = pyIntStr n ∧ pyEndsWith (pyIntStr n) ".0" = false)
      ∧ (∀ r : String, pyEndsWith r ".0" = true → formatValueReal (.pfloat r) = pyDropLast2 r)
      ∧ formatValueReal (.pbool true) = "true"
      ∧ formatValueReal (.pbool false) = "false"
      ∧ formatValueReal .pnone = "null"
      ∧ (∀ s : String, formatValueReal (.pstr s) = "\x27" ++ s ++ "\x27") := by
  refine ⟨?_, fun n => ?_, fun r h => ?_, rfl, rfl, rfl, fun s => rfl⟩
  · intro cfg st sec k oldv e v hil hsec hv hk hls hval
    have hkv : keyValueMatch
        (eightSp ++ '\x27' :: (k.data ++ '\x27' :: ':' :: ' ' :: (oldv ++ ',' :: e)))
        = some ('\x27', k.data, e) := by
      rw [keyValueMatch, if_pos (lStarts_append_self _ _), drop_eightSp]
      show (kvScan '\x27' (k.data ++ '\x27' :: ':' :: ' ' :: (oldv ++ ',' :: e))).map _ = _
      rw [kvScan_close (fun c hc => ⟨(hk c hc).1, (hk c hc).2.2⟩) (by decide)
        (show kvCont (':' :: ' ' :: (oldv ++ ',' :: e)) = some e from hval)]
      rfl
    have hp := parentKeyMatch_eightSp
      ('\x27' :: (k.data ++ '\x27' :: ':' :: ' ' :: (oldv ++ ',' :: e)))
    have he := listEndMatch_quote (k.data ++ '\x27' :: ':' :: ' ' :: (oldv ++ ',' :: e))
    have hmk : String.mk k.data = k := rfl
    simp only [processLine, hp, hls, he, hil, hkv, Bool.false_eq_true, if_false,
      stripQuotes_clean hk, hmk, hsec, hv, subTemplate_escBackslash]
    simp [List.append_assoc]
  · exact ⟨by simp [formatValueReal, pyEndsWith_dot0_of_ne_dot (pyIntStr_ne_dot n)],
      pyEndsWith_dot0_of_ne_dot (pyIntStr_ne_dot n)⟩
  · simp [formatValueReal, h]

/-- C1 witness: a boolean field changed to `true` rewrites
the quoted field with value false to the quoted field with value
true, with everything else on the line untouched. -/
theorem c1_scalar_rewrite_witness :
    processLine [("general", [("field", .pbool true)])] ⟨"general", false, ""⟩
        (eightSp ++ '\x27' ::
          ("field".data ++ '\x27' :: ':' :: ' ' :: ("false".data ++ ',' :: ['\n'])))
      = .ok (⟨"general", false, ""⟩,
          [eightSp ++ '\x27' ::
            ("field".data ++ '\x27' :: ':' :: ' ' :: ("true".data ++ ',' :: ['\n']))]) :=
  c1_scalar_rewrite.1 [("general", [("field", .pbool true)])] ⟨"general", false, ""⟩
    [("field", .pbool true)] "field" "false".data ['\n'] (.pbool true)
    rfl rfl rfl (by decide) (by decide) (by decide)

theorem splitLines_join (items : List String)
    (hinl : ∀ it ∈ items, '\n' ∉ it.data) :
    splitLines ((pyJoinComma (items.map fun it => "        \x27" ++ it ++ "\x27")).data
        ++ '\n' :: "    ],\n".data)
      = elemLines items ++ [("    ],\n").data] := by
  induction items with
  | nil => decide
  | cons a xs ih =>
    match xs with
    | [] =>
      have ha : '\n' ∉ ("        \x27".data ++ a.data ++ ['\x27']) := by
        intro hmem
        rcases List.mem_append.mp hmem with hmem1 | hmem2
        · rcases List.mem_append.mp hmem1 with h1 | h2
          · revert h1; decide
          · exact hinl a (by simp) h2
        · revert hmem2; decide
      have hform : (pyJoinComma ([a].map fun it => "        \x27" ++ it ++ "\x27")).data
          ++ '\n' :: "    ],\n".data
          = ("        \x27".data ++ a.data ++ ['\x27']) ++ '\n' :: "    ],\n".data := by
        simp [pyJoinComma, String.data_append]
      rw [hform, splitLines_line ha]
      have hclose : splitLines ("    ],\n".data) = [("    ],\n").data] := by decide
      rw [hclose]
      simp [elemLines, String.data_append]
    | b :: ys =>
      have ha : '\n' ∉ ("        \x27".data ++ a.data ++ ['\x27', ',']) := by
        intro hmem
        rcases List.mem_append.mp hmem with hmem1 | hmem2
        · rcases List.mem_append.mp hmem1 with h1 | h2
          · revert h1; decide
          · exact hinl a (by simp) h2
        · revert hmem2; decide
      have hform : (pyJoinComma ((a :: b :: ys).map fun it => "        \x27" ++ it ++ "\x27")).data
          ++ '\n' :: "    ],\n".data
          = ("        \x27".data ++ a.data ++ ['\x27', ',']) ++ '\n' ::
              ((pyJoinComma ((b :: ys).map fun it => "        \x27" ++ it ++ "\x27")).data
                ++ '\n' :: "    ],\n".data) := by
        simp [pyJoinComma, String.data_append]
      rw [hform, splitLines_line ha, ih (fun it hit => hinl it (by simp [hit]))]
      simp [elemLines, String.data_append]

theorem splitLines_listBlock (k : String) (items : List String)
    (hknl : '\n' ∉ k.data) (hinl : ∀ it ∈ items, '\n' ∉ it.data) :
    splitLines (listBlockString k items).data = listBlockLines k items := by
  have hhead : '\n' ∉ ("    \x27".data ++ k.data ++ "\x27: [".data) := by
    intro hmem
    rcases List.mem_append.mp hmem with hmem1 | hmem2
    · rcases List.mem_append.mp hmem1 with h1 | h2
      · revert h1; decide
      · exact hknl h2
    · revert hmem2; decide
  have hform : (listBlockString k items).data
      = ("    \x27".data ++ k.data ++ "\x27: [".data) ++ '\n' ::
          ((pyJoinComma (items.map fun it => "        \x27" ++ it ++ "\x27")).data
            ++ '\n' :: "    ],\n".data) := by
    simp [listBlockString, String.data_append]
  rw [hform, splitLines_line hhead, splitLines_join items hinl]
  simp [listBlockLines, String.data_append]

theorem stripQuotes_id {k : List Char}
    (hk : ∀ c ∈ k, c ≠ '\x27' ∧ c ≠ '\x22' ∧ c ≠ '\n') :
    stripQuotes k = k := by
  rw [stripQuotes, List.filter_eq_self.mpr fun c hc => by
    have := hk c hc
    simp [this.1, this.2.1]]

theorem drop_fourSp (x : List Char) : (fourSp ++ x).drop 4 = x := by
  simp [fourSp]

theorem parentKeyMatch_keyline (k : String)
    (hk : ∀ c ∈ k.data, c ≠ '\x27' ∧ c ≠ '\x22' ∧ c ≠ '\n') :
    parentKeyMatch (fourSp ++ '\x27' :: (k.data ++ '\x27' :: ':' :: ' ' :: '[' :: ['\n']))
      = none := by
  rw [parentKeyMatch, if_pos (lStarts_append_self _ _), drop_fourSp]
  show parentScan '\x27' (k.data ++ '\x27' :: ':' :: ' ' :: '[' :: ['\n']) = none
  exact parentScan_none_ext (fun c hc => ⟨(hk c hc).1, (hk c hc).2.2⟩) (by decide)
    (by decide) (by decide)

theorem lStarts_eightSp_keyline (x : List Char) :
    lStarts eightSp (fourSp ++ '\x27' :: x) = false := by
  simp [eightSp, fourSp, lStarts]

theorem keyline_pass (cfg : ConfigDict) (st : SaveState) (k : String)
    (hst : st.inList = false)
    (hk : ∀ c ∈ k.data, c ≠ '\x27' ∧ c ≠ '\x22' ∧ c ≠ '\n') :
    processLine cfg st (("    \x27" ++ k ++ "\x27: [\n").data)
      = .ok (st, [("    \x27" ++ k ++ "\x27: [\n").data]) := by
  have hform : ("    \x27" ++ k ++ "\x27: [\n").data
      = fourSp ++ '\x27' :: (k.data ++ '\x27' :: ':' :: ' ' :: '[' :: ['\n']) := by
    simp [String.data_append, fourSp]
  rw [hform]
  refine processLine_nomatch (parentKeyMatch_keyline k hk) ?_ ?_ hst ?_
  · rw [listStartMatch, if_neg (by simp [lStarts_eightSp_keyline])]
  · rw [listEndMatch, if_neg (by simp [lStarts_eightSp_keyline])]
  · rw [keyValueMatch, if_neg (by simp [lStarts_eightSp_keyline])]

theorem elemline_comma_pass (cfg : ConfigDict) (st : SaveState) (a : String)
    (hst : st.inList = false)
    (ha : ∀ c ∈ a.data, c ≠ '\x27' ∧ c ≠ '\x22' ∧ c ≠ '\n') :
    processLine cfg st (("        \x27" ++ a ++ "\x27,\n").data)
      = .ok (st, [("        \x27" ++ a ++ "\x27,\n").data]) := by
  have hform : ("        \x27" ++ a ++ "\x27,\n").data
      = eightSp ++ '\x27' :: (a.data ++ '\x27' :: ',' :: ['\n']) := by
    simp [String.data_append, eightSp]
  rw [hform]
  have hw : ∀ c ∈ a.data, c ≠ '\x27' ∧ c ≠ '\n' :=
    fun c hc => ⟨(ha c hc).1, (ha c hc).2.2⟩
  refine processLine_nomatch (parentKeyMatch_eightSp _) ?_ (listEndMatch_quote _) hst ?_
  · rw [listStartMatch, if_pos (lStarts_append_self _ _), drop_eightSp]
    show lsScan '\x27' (a.data ++ '\x27' :: ',' :: ['\n']) = none
    exact lsScan_none_ext hw (by decide) (by decide) (by decide)
  · rw [keyValueMatch, if_pos (lStarts_append_self _ _), drop_eightSp]
    show (kvScan '\x27' (a.data ++ '\x27' :: ',' :: ['\n'])).map _ = none
    rw [kvScan_none_ext hw (by decide) (by decide) (by decide)]
    rfl

theorem elemline_last_pass (cfg : ConfigDict) (st : SaveState) (a : String)
    (hst : st.inList = false)
    (ha : ∀ c ∈ a.data, c ≠ '\x27' ∧ c ≠ '\x22' ∧ c ≠ '\n') :
    processLine cfg st (("        \x27" ++ a ++ "\x27\n").data)
      = .ok (st, [("        \x27" ++ a ++ "\x27\n").data]) := by
  have hform : ("        \x27" ++ a ++ "\x27\n").data
      = eightSp ++ '\x27' :: (a.data ++ '\x27' :: ['\n']) := by
    simp [String.data_append, eightSp]
  rw [hform]
  have hw : ∀ c ∈ a.data, c ≠ '\x27' ∧ c ≠ '\n' :=
    fun c hc => ⟨(ha c hc).1, (ha c hc).2.2⟩
  refine processLine_nomatch (parentKeyMatch_eightSp _) ?_ (listEndMatch_quote _) hst ?_
  · rw [listStartMatch, if_pos (lStarts_append_self _ _), drop_eightSp]
    show lsScan '\x27' (a.data ++ '\x27' :: ['\n']) = none
    exact lsScan_none_ext hw (by decide) (by decide) (by decide)
  · rw [keyValueMatch, if_pos (lStarts_append_self _ _), drop_eightSp]
    show (kvScan '\x27' (a.data ++ '\x27' :: ['\n'])).map _ = none
    rw [kvScan_none_ext hw (by decide) (by decide) (by decide)]
    rfl

theorem elemLines_pass (cfg : ConfigDict) (st : SaveState)
    (hst : st.inList = false) :
    ∀ (items : List String),
      (∀ it ∈ items, ∀ c ∈ it.data, c ≠ '\x27' ∧ c ≠ '\x22' ∧ c ≠ '\n') →
      ∀ l ∈ elemLines items, processLine cfg st l = .ok (st, [l])
  | [], _, l, hl => by
    have : l = ['\n'] := by simpa [elemLines] using hl
    subst this
    exact processLine_nomatch (by decide) (by decide) (by decide) hst (by decide)
  | [a], hcl, l, hl => by
    have : l = ("        \x27" ++ a ++ "\x27\n").data := by simpa [elemLines] using hl
    subst this
    exact elemline_last_pass cfg st a hst (hcl a (by simp))
  | a :: b :: ys, hcl, l, hl => by
    rcases (by simpa [elemLines] using hl :
        l = ("        \x27" ++ a ++ "\x27,\n").data ∨ l ∈ elemLines (b :: ys)) with h | h
    · subst h
      exact elemline_comma_pass cfg st a hst (hcl a (by simp))
    · exact elemLines_pass cfg st hst (b :: ys) (fun it hit => hcl it (by simp [hit])) l h

theorem closeline_pass (cfg : ConfigDict) (st : SaveState)
    (hst : st.inList = false) :
    processLine cfg st ("    ],\n".data) = .ok (st, [("    ],\n").data]) :=
  processLine_nomatch (by decide) (by decide) (by decide) hst (by decide)

theorem keyline_nomatch (k : String) :
    listStartMatch (("    \x27" ++ k ++ "\x27: [\n").data) = none
      ∧ listEndMatch (("    \x27" ++ k ++ "\x27: [\n").data) = false := by
  have hform : ("    \x27" ++ k ++ "\x27: [\n").data
      = fourSp ++ '\x27' :: (k.data ++ '\x27' :: ':' :: ' ' :: '[' :: ['\n']) := by
    simp [String.data_append, fourSp]
  rw [hform]
  constructor
  · rw [listStartMatch, if_neg (by simp [lStarts_eightSp_keyline])]
  · rw [listEndMatch, if_neg (by simp [lStarts_eightSp_keyline])]

theorem elemline_comma_nomatch (a : String)
    (ha : ∀ c ∈ a.data, c ≠ '\x27' ∧ c ≠ '\x22' ∧ c ≠ '\n') :
    listStartMatch (("        \x27" ++ a ++ "\x27,\n").data) = none
      ∧ listEndMatch (("        \x27" ++ a ++ "\x27,\n").data) = false := by
  have hform : ("        \x27" ++ a ++ "\x27,\n").data
      = eightSp ++ '\x27' :: (a.data ++ '\x27' :: ',' :: ['\n']) := by
    simp [String.data_append, eightSp]
  rw [hform]
  refine ⟨?_, listEndMatch_quote _⟩
  rw [listStartMatch, if_pos (lStarts_append_self _ _), drop_eightSp]
  show lsScan '\x27' (a.data ++ '\x27' :: ',' :: ['\n']) = none
  exact lsScan_none_ext (fun c hc => ⟨(ha c hc).1, (ha c hc).2.2⟩) (by decide)
    (by decide) (by decide)

theorem elemline_last_nomatch (a : String)
    (ha : ∀ c ∈ a.data, c ≠ '\x27' ∧ c ≠ '\x22' ∧ c ≠ '\n') :
    listStartMatch (("        \x27" ++ a ++ "\x27\n").data) = none
      ∧ listEndMatch (("        \x27" ++ a ++ "\x27\n").data) = false := by
  have hform : ("        \x27" ++ a ++ "\x27\n").data
      = eightSp ++ '\x27' :: (a.data ++ '\x27' :: ['\n']) := by
    simp [String.data_append, eightSp]
  rw [hform]
  refine ⟨?_, listEndMatch_quote _⟩
  rw [listStartMatch, if_pos (lStarts_append_self _ _), drop_eightSp]
  show lsScan '\x27' (a.data ++ '\x27' :: ['\n']) = none
  exact lsScan_none_ext (fun c hc => ⟨(ha c hc).1, (ha c hc).2.2⟩) (by decide)
    (by decide) (by decide)

theorem elemLines_nomatch :
    ∀ (items : List String),
      (∀ it ∈ items, ∀ c ∈ it.data, c ≠ '\x27' ∧ c ≠ '\x22' ∧ c ≠ '\n') →
      ∀ l ∈ elemLines items, listStartMatch l = none ∧ listEndMatch l = false
  | [], _, l, hl => by
    have : l = ['\n'] := by simpa [elemLines] using hl
    subst this
    exact ⟨by decide, by decide⟩
  | [a], hcl, l, hl => by
    have : l = ("        \x27" ++ a ++ "\x27\n").data := by simpa [elemLines] using hl
    subst this
    exact elemline_last_nomatch a (hcl a (by simp))
  | a :: b :: ys, hcl, l, hl => by
    rcases (by simpa [elemLines] using hl :
        l = ("        \x27" ++ a ++ "\x27,\n").data ∨ l ∈ elemLines (b :: ys)) with h | h
    · subst h
      exact elemline_comma_nomatch a (hcl a (by simp))
    · exact elemLines_nomatch (b :: ys) (fun it hit => hcl it (by simp [hit])) l h

/-- C9: the list replacement block is emitted with its key line and its
closing bracket at 4-space indent (only the element lines are at
8-space indent), so the rewritten block no longer matches the 8-space
list-opening and list-closing patterns of the writer, and a subsequent
`SaveConfig` run passes every line of the block through unchanged — for
any document, i.e. even when the list value differs (the writer is not
idempotent on list fields).  Conjuncts: (i) the list branch of the writer
emits exactly `listBlockString` and enters list mode; (ii) read back,
the block is the `listBlockLines`; (iii) no line of the block matches
the list-opening or list-closing pattern; (iv) a later run over the
lines of the block, against any document `cfg2` and any state not inside a
list, returns them verbatim with the state unchanged. -/
theorem c9_list_block_not_reprocessed (cfg cfg2 : ConfigDict)
    (st st2 : SaveState) (sec : ConfigSection) (k : String) (items : List String)
    (hsec : lookupSec cfg st.parent = some sec)
    (hv : List.lookup k sec = some (.plist items))
    (hk : ∀ c ∈ k.data, c ≠ '\x27' ∧ c ≠ '\x22' ∧ c ≠ '\n')
    (hitems : ∀ it ∈ items, ∀ c ∈ it.data, c ≠ '\x27' ∧ c ≠ '\x22' ∧ c ≠ '\n')
    (hst2 : st2.inList = false) :
    processLine cfg st (eightSp ++ '\x27' :: (k.data ++ '\x27' :: ':' :: ' ' :: '[' :: ['\n']))
        = .ok ({ st with listKey := k, inList := true }, [(listBlockString k items).data])
      ∧ splitLines (listBlockString k items).data = listBlockLines k items
      ∧ (∀ l ∈ listBlockLines k items, listStartMatch l = none ∧ listEndMatch l = false)
      ∧ processLines cfg2 st2 (listBlockLines k items) = .ok (st2, listBlockLines k items) := by
  refine ⟨?_, splitLines_listBlock k items (fun h => (hk '\n' h).2.2 rfl)
      (fun it hit h => (hitems it hit '\n' h).2.2 rfl), ?_, ?_⟩
  · have hp := parentKeyMatch_eightSp
      ('\x27' :: (k.data ++ '\x27' :: ':' :: ' ' :: '[' :: ['\n']))
    have hls : listStartMatch
        (eightSp ++ '\x27' :: (k.data ++ '\x27' :: ':' :: ' ' :: '[' :: ['\n']))
        = some k.data := by
      rw [listStartMatch, if_pos (lStarts_append_self _ _), drop_eightSp]
      show lsScan '\x27' (k.data ++ '\x27' :: ':' :: ' ' :: '[' :: ['\n']) = some k.data
      exact lsScan_close (fun c hc => ⟨(hk c hc).1, (hk c hc).2.2⟩) (by decide) (by decide)
    have hmk : String.mk k.data = k := rfl
    simp only [processLine, hp, hls, stripQuotes_id hk, hmk, hsec, hv, pyIterStrings]
  · intro l hl
    rcases (by simpa [listBlockLines] using hl :
        l = ("    \x27" ++ k ++ "\x27: [\n").data ∨ l ∈ elemLines items
          ∨ l = ("    ],\n").data) with h | h | h
    · subst h; exact keyline_nomatch k
    · exact elemLines_nomatch items hitems l h
    · subst h; exact ⟨by decide, by decide⟩
  · apply processLines_id
    intro l hl
    rcases (by simpa [listBlockLines] using hl :
        l = ("    \x27" ++ k ++ "\x27: [\n").data ∨ l ∈ elemLines items
          ∨ l = ("    ],\n").data) with h | h | h
    · subst h; exact keyline_pass cfg2 st2 k hst2 hk
    · exact elemLines_pass cfg2 st2 hst2 items hitems l h
    · subst h; exact closeline_pass cfg2 st2 hst2

/-- C9 witness. -/
theorem c9_list_block_not_reprocessed_witness :
    processLines [("twitter", [])] ⟨"twitter", false, ""⟩
        (listBlockLines "mylist" ["a", "b"])
      = .ok (⟨"twitter", false, ""⟩, listBlockLines "mylist" ["a", "b"]) :=
  (c9_list_block_not_reprocessed
      [("general", [("mylist", .plist ["a", "b"])])] [("twitter", [])]
      ⟨"general", false, ""⟩ ⟨"twitter", false, ""⟩
      [("mylist", .plist ["a", "b"])] "mylist" ["a", "b"]
      rfl rfl (by decide) (by decide) rfl).2.2.2
